import Mathlib

/-! Verification development for the Galea serial board controller
(`src/board_controller/openbci/galea_serial.cpp`).  The controller is
embedded shallowly: machine integers are `Nat`/`Int` with explicit
reductions modulo 2^w, `double` arithmetic is modelled over `ℚ`, the
decoding of an IEEE 32-bit float from four raw bytes is abstracted as a
function parameter (the claims only depend on which bytes are read and on
the subsequent arithmetic, not on IEEE internals), and the stateful
acquisition loop becomes explicit state passing over input byte lists. -/

namespace GaleaSerialModel

/-- Exit codes of the BrainFlow API used by `galea_serial.cpp`.  The enum
itself lives outside the decoded sources; its members are pairwise distinct
integer values, which the inductive's distinct constructors reflect. -/
inductive ExitCode where
  | STATUS_OK
  | INVALID_ARGUMENTS_ERROR
  | UNABLE_TO_OPEN_PORT_ERROR
  | SET_PORT_ERROR
  | BOARD_NOT_READY_ERROR
  | BOARD_NOT_CREATED_ERROR
  | STREAM_ALREADY_RUN_ERROR
  | BOARD_WRITE_ERROR
  | STREAM_THREAD_IS_NOT_RUNNING
  | SYNC_TIMEOUT_ERROR
  deriving DecidableEq, Repr

open ExitCode

/-- Modelled from the spec: `custom_cast.h` is not among the decoded
sources.  "A 24-bit big-endian (or protocol-defined) signed sample triplet
is sign-extended to a signed 32-bit integer before scaling."  The three
bytes are reduced modulo 256 (they come from an `unsigned char` buffer). -/
def cast_24bit_to_int32 (b0 b1 b2 : ℕ) : ℤ :=
  let v : ℤ := ((b0 % 256) * 65536 + (b1 % 256) * 256 + (b2 % 256) : ℕ)
  if v < 2 ^ 23 then v else v - 2 ^ 24

/-- `memcpy` of two buffer bytes into a `uint16_t` (little-endian host),
as used for the temperature field. -/
def read_u16 (b : ℕ → ℕ) (off : ℕ) : ℕ :=
  (b off % 256) + 256 * (b (off + 1) % 256)

/-- `memcpy` of four buffer bytes into an `int32_t` (little-endian host),
as used for the PPG fields; twos-complement reading. -/
def read_i32 (b : ℕ → ℕ) (off : ℕ) : ℤ :=
  let u : ℤ := ((b off % 256) + 256 * (b (off + 1) % 256) +
    65536 * (b (off + 2) % 256) + 16777216 * (b (off + 3) % 256) : ℕ)
  if u < 2 ^ 31 then u else u - 2 ^ 32

/-- Per-frame decoding context: the scale factors, the clock-sync state
(`half_rtt` and the smoothed offset `time_delta`), the host-arrival
timestamp of the frame, and the abstract decoder `f32dec` turning the four
raw bytes of a wire `float` into its value. -/
structure DecodeCtx where
  emg_scale : ℚ
  eeg_scale_sister_board : ℚ
  eeg_scale_main_board : ℚ
  half_rtt : ℚ
  time_delta : ℚ
  pc_timestamp : ℚ
  f32dec : ℕ → ℕ → ℕ → ℕ → ℚ

/-- `memcpy` of four buffer bytes into a `float`, decoded by the context's
abstract 32-bit float decoder. -/
def read_f32 (ctx : DecodeCtx) (b : ℕ → ℕ) (off : ℕ) : ℚ :=
  ctx.f32dec (b off) (b (off + 1)) (b (off + 2)) (b (off + 3))

/-- Frame geometry.  The constants (`num_base_packages`,
`bytes_in_single_entry`, `exg_package_size`, `num_exg_packages_per_base`,
`transaction_size`) and the two sentinel bytes are declared in
`galea_serial.h`, which is not among the decoded sources; they are kept
abstract as fields, so every theorem quantifies over them. -/
structure FrameLayout where
  num_base_packages : ℕ
  bytes_in_single_entry : ℕ
  exg_package_size : ℕ
  num_exg_packages_per_base : ℕ
  transaction_size : ℕ
  start_byte : ℕ
  stop_byte : ℕ

/-- One decoded output row.  Modelled from the spec: the Channel Map
(`board_descr`) lives in a JSON board descriptor outside the decoded
sources; it binds each semantic role to a distinct row index, which the
distinct named fields reflect.  The sixteen scaled sensor samples occupy
row indices 1..16 (`package[i - 3]` for `i = 4..19` in the source). -/
@[ext]
structure SampleRow where
  packageNum : ℚ
  exg : Fin 16 → ℚ
  eda : ℚ
  ppgRed : ℚ
  ppgIr : ℚ
  temperature : ℚ
  battery : ℚ
  timestamp : ℚ
  hostTimestamp : ℚ
  deviceTimestamp : ℚ

/-- Scale factor chosen for sample position `t` (the source's
`tmp_counter`) inside a dense (base) package: `tmp_counter < 6` uses
`emg_scale`, `tmp_counter == 6 || tmp_counter == 7` uses
`eeg_scale_sister_board`, the rest use `eeg_scale_main_board`
(lines 366-377). -/
def dense_scale (ctx : DecodeCtx) (t : ℕ) : ℚ :=
  if t < 6 then ctx.emg_scale
  else if t = 6 ∨ t = 7 then ctx.eeg_scale_sister_board
  else ctx.eeg_scale_main_board

/-- Scale factor chosen for sample position `t` inside a compact (exg-only)
sub-package: `tmp_counter < 6` uses `emg_scale`, `tmp_counter == 6 ||
tmp_counter == 11` uses `eeg_scale_sister_board`, the rest use
`eeg_scale_main_board` (lines 408-419). -/
def exg_scale_sel (ctx : DecodeCtx) (t : ℕ) : ℚ :=
  if t < 6 then ctx.emg_scale
  else if t = 6 ∨ t = 11 then ctx.eeg_scale_sister_board
  else ctx.eeg_scale_main_board

/-- Decode the dense part of base package `k` from buffer `b` (the frame
body with sentinels stripped): counter byte at `offset`, sixteen scaled
24-bit samples at `offset + 5 + 3*t`, auxiliary fields at their fixed
offsets, device timestamp (`float`, milliseconds) at `offset + 64`,
timestamp channel `timestamp_device + time_delta - half_rtt`, and the two
diagnostic channels `pc_timestamp` and `timestamp_device`
(lines 363-399). -/
def decode_dense (L : FrameLayout) (ctx : DecodeCtx) (b : ℕ → ℕ) (k : ℕ) :
    SampleRow :=
  let offset := k * L.bytes_in_single_entry
  let ts := read_f32 ctx b (64 + offset) / 1000
  { packageNum := ((b (0 + offset) % 256 : ℕ) : ℚ)
    exg := fun t =>
      dense_scale ctx t *
        ((cast_24bit_to_int32 (b (offset + 5 + 3 * t)) (b (offset + 5 + 3 * t + 1))
          (b (offset + 5 + 3 * t + 2)) : ℤ) : ℚ)
    eda := read_f32 ctx b (1 + offset)
    ppgRed := ((read_i32 b (56 + offset) : ℤ) : ℚ)
    ppgIr := ((read_i32 b (60 + offset) : ℤ) : ℚ)
    temperature := ((read_u16 b (54 + offset) : ℕ) : ℚ) / 100
    battery := ((b (53 + offset) % 256 : ℕ) : ℚ)
    timestamp := ts + ctx.time_delta - ctx.half_rtt
    hostTimestamp := ctx.pc_timestamp
    deviceTimestamp := ts }

/-- Decode compact sub-package `j` of base package `k`, overwriting in the
previous row state `prev` exactly the fields the source assigns: the
sixteen scaled samples at `exg_offset + 3*t`, the device timestamp
(`float`, milliseconds) at `exg_offset + 48`, the timestamp channel, the
two diagnostic channels, and the incremented counter; all other fields are
inherited from `prev` (lines 403-428). -/
def decode_exg (L : FrameLayout) (ctx : DecodeCtx) (b : ℕ → ℕ)
    (prev : SampleRow) (k j : ℕ) : SampleRow :=
  let exg_offset := k * L.bytes_in_single_entry + L.exg_package_size * j
  let ts := read_f32 ctx b (48 + exg_offset) / 1000
  { prev with
    exg := fun t =>
      exg_scale_sel ctx t *
        ((cast_24bit_to_int32 (b (exg_offset + 3 * t)) (b (exg_offset + 3 * t + 1))
          (b (exg_offset + 3 * t + 2)) : ℤ) : ℚ)
    timestamp := ts + ctx.time_delta - ctx.half_rtt
    hostTimestamp := ctx.pc_timestamp
    deviceTimestamp := ts
    packageNum := prev.packageNum + 1 }

/-- The chain of compact sub-package rows of base package `k`, threading
the mutated row state `prev` exactly as the source reuses its `package`
array: sub-package `j` starts from the row pushed just before it. -/
def exg_chain (L : FrameLayout) (ctx : DecodeCtx) (b : ℕ → ℕ) (k : ℕ)
    (prev : SampleRow) (j : ℕ) : ℕ → List SampleRow
  | 0 => []
  | fuel + 1 =>
    let r := decode_exg L ctx b prev k j
    r :: exg_chain L ctx b k r (j + 1) fuel

/-- All rows produced for base package `k`: the dense row followed by its
`num_exg_packages_per_base` compact sub-package rows. -/
def decode_base (L : FrameLayout) (ctx : DecodeCtx) (b : ℕ → ℕ) (k : ℕ) :
    List SampleRow :=
  let d := decode_dense L ctx b k
  d :: exg_chain L ctx b k d 0 L.num_exg_packages_per_base

/-- All rows pushed for one validated frame body `b`, in on-wire order
(lines 360-430). -/
def decode_frame (L : FrameLayout) (ctx : DecodeCtx) (b : ℕ → ℕ) :
    List SampleRow :=
  ((List.range L.num_base_packages).map (decode_base L ctx b)).flatten

/-- Modelled from the spec: `DataBuffer` is not among the decoded sources.
The read thread constructs `DataBuffer time_buffer (1, 11)`, a ring buffer
holding the 11 most recent one-element entries ("a bounded history ...
oldest evicted").  Adding a delta keeps the most recent 11. -/
def data_buffer_add (buf : List ℚ) (d : ℚ) : List ℚ :=
  if buf.length < 11 then buf ++ [d] else buf.tail ++ [d]

/-- Modelled from the spec: `get_current_data (10, ...)` returns the at
most 10 most recent entries of the buffer ("capped at 10 most-recent
entries"). -/
def get_current_data (n : ℕ) (buf : List ℚ) : List ℚ :=
  buf.drop (buf.length - n)

/-- The buffer contents after feeding a sequence of per-frame deltas in
order, starting from the empty buffer. -/
def offset_history (obs : List ℚ) : List ℚ :=
  obs.foldl data_buffer_add []

/-- The smoothed offset the read thread computes from a buffer: the sum of
the at most 10 most recent deltas divided by their number
(lines 351-357). -/
def smoothed_offset (buf : List ℚ) : ℚ :=
  (get_current_data 10 buf).sum / ((get_current_data 10 buf).length : ℚ)

/-- Session flags relevant to the lifecycle claims.  `inited` is the
source's `initialized` flag, `streaming` is `is_streaming`, `keep_alive`
the cooperative run flag, `serial` records whether a `Serial` object is
currently held (`none` models the `NULL` pointer), `state` the handshake
state code, and `timeout` the configured read timeout (seconds). -/
structure SessionState where
  inited : Bool
  streaming : Bool
  keep_alive : Bool
  serial : Option Unit
  state : ExitCode
  timeout : ℤ
  deriving DecidableEq, Repr

/-- `GaleaSerial::config_board` (lines 116-146).  `hasSerial` is whether
`serial != NULL`, `sendRes` the result of `send_to_serial_port` for the
command plus the appended newline, and `probeRes` the result of the
`calc_time` probe when it is invoked. -/
def config_board (hasSerial streaming : Bool) (conf : String) (sendRes : ℤ)
    (probeRes : ExitCode) : ExitCode :=
  if !hasSerial then BOARD_NOT_CREATED_ERROR
  else if conf = "calc_time" then
    if streaming then BOARD_NOT_CREATED_ERROR
    else probeRes
  else if sendRes = (conf.length : ℤ) + 1 then STATUS_OK
  else BOARD_WRITE_ERROR

/-- Environment of one `prepare_session` call: results of
`open_serial_port`, `set_serial_port_settings`, `set_custom_baudrate`, and
of the two `send_to_serial_port` writes for the initial commands `"o\n"`
(2 bytes) and `"~6\n"` (3 bytes). -/
structure PrepareEnv where
  openRes : ℤ
  setRes : ℤ
  baudRes : ℤ
  send1Res : ℤ
  send2Res : ℤ
  deriving DecidableEq, Repr

/-- `GaleaSerial::prepare_session` (lines 45-114).  `portEmpty` is whether
`params.serial_port` is empty, `timeout` the configured timeout.  Each
branch returns the successor state and the exit code; note that the
port-open failure branch returns without `delete serial; serial = NULL`,
unlike the four later failure branches. -/
def prepare_session (st : SessionState) (portEmpty : Bool) (timeout : ℤ)
    (env : PrepareEnv) : SessionState × ExitCode :=
  if st.inited then (st, STATUS_OK)
  else if portEmpty then (st, INVALID_ARGUMENTS_ERROR)
  else
    let t := if timeout > 600 ∨ timeout < 1 then 3 else timeout
    let st1 := { st with serial := some (), timeout := t }
    if env.openRes < 0 then (st1, UNABLE_TO_OPEN_PORT_ERROR)
    else if env.setRes < 0 then ({ st1 with serial := none }, SET_PORT_ERROR)
    else if env.baudRes < 0 then ({ st1 with serial := none }, SET_PORT_ERROR)
    else if config_board true st.streaming "o" env.send1Res STATUS_OK ≠ STATUS_OK then
      ({ st1 with serial := none }, BOARD_NOT_READY_ERROR)
    else if config_board true st.streaming "~6" env.send2Res STATUS_OK ≠ STATUS_OK then
      ({ st1 with serial := none }, BOARD_NOT_READY_ERROR)
    else ({ st1 with inited := true }, STATUS_OK)

/-- The guard portion of `GaleaSerial::start_stream` (lines 148-159): the
two lifecycle checks performed before any probe or thread spawn; `rest`
abstracts the outcome of the remainder of the function. -/
def start_stream_entry (inited streaming : Bool) (rest : ExitCode) : ExitCode :=
  if !inited then BOARD_NOT_CREATED_ERROR
  else if streaming then STREAM_ALREADY_RUN_ERROR
  else rest

/-- The drain loop of `GaleaSerial::stop_stream` (lines 222-236): starting
from `res = 1`, read one byte per iteration (`reads attempt` is the result
of the read at zero-based attempt index `attempt`), increment the attempt
counter, return failure when it reaches `max_attempt = 40000`, and exit
the loop successfully when a read returns something other than 1.  `fuel`
is `40000 - attempt`, enough for the cap to fire first. -/
def drain_loop (reads : ℕ → ℤ) (attempt : ℕ) : ℕ → Bool
  | 0 => true
  | fuel + 1 =>
    let res := reads attempt
    if attempt + 1 = 40000 then false
    else if res = 1 then drain_loop reads (attempt + 1) fuel
    else true

/-- `GaleaSerial::stop_stream` (lines 206-253).  `sendRes` is the result of
writing the 2-byte stop command `"s\n"`; `reads` gives the drain-loop read
results.  The three diagnostic `calc_time` probes run after a successful
drain never change the returned code (their failures `break` without
propagating), so they are omitted from the state modelled here.  The
thread join has no observable effect on the modelled fields. -/
def stop_stream (st : SessionState) (sendRes : ℤ) (reads : ℕ → ℤ) :
    SessionState × ExitCode :=
  if st.streaming then
    let st1 := { st with
      keep_alive := false
      streaming := false
      state := SYNC_TIMEOUT_ERROR }
    if sendRes ≠ 2 then (st1, BOARD_WRITE_ERROR)
    else if drain_loop reads 0 40000 then (st1, STATUS_OK)
    else (st1, BOARD_WRITE_ERROR)
  else (st, STREAM_THREAD_IS_NOT_RUNNING)

/-- `GaleaSerial::calc_time` (lines 435-470): returns the new `half_rtt`
and the exit code.  `sendRes` is the result of writing the 5-byte probe
command `"F444\n"`, `recvRes` of reading the 4-byte reply, `start` and
`done` the host timestamps around the exchange.  On either short write or
short read the stored `half_rtt` is returned unchanged with
`BOARD_WRITE_ERROR`; on success it becomes `(done - start) / 2`. -/
def calc_time (half_rtt : ℚ) (sendRes recvRes : ℤ) (start done : ℚ) :
    ℚ × ExitCode :=
  if sendRes ≠ 5 then (half_rtt, BOARD_WRITE_ERROR)
  else if recvRes ≠ 4 then (half_rtt, BOARD_WRITE_ERROR)
  else ((done - start) / 2, STATUS_OK)

/-- The frame-framing portion of `GaleaSerial::read_thread`
(lines 293-345) over an input byte stream: read one byte; if it is not the
start sentinel, discard it and resynchronise; otherwise accumulate the
fixed-size body (the body read starts at buffer position 0, so the
sentinel byte itself is overwritten and the decoded buffer is exactly the
body), read one more byte, and only when it equals the stop sentinel
decode the frame and push its rows, in order.  The stream ending mid-frame
models the run flag clearing or the reads timing out: no rows are pushed
for an incomplete frame.  `ctxs n` is the decoding context in force at the
`n`-th validated frame (`pc_timestamp` and the smoothed offset evolve per
frame). -/
def process_stream (L : FrameLayout) (ctxs : ℕ → DecodeCtx) (n : ℕ) :
    List ℕ → List SampleRow
  | [] => []
  | byte :: rest =>
    if byte ≠ L.start_byte then process_stream L ctxs n rest
    else if rest.length < L.transaction_size + 1 then []
    else
      let last := rest.getD L.transaction_size 0
      let rest2 := rest.drop (L.transaction_size + 1)
      if last = L.stop_byte then
        decode_frame L (ctxs n) (fun i => (rest.take L.transaction_size).getD i 0) ++
          process_stream L ctxs (n + 1) rest2
      else process_stream L ctxs n rest2
  termination_by s => s.length
  decreasing_by
    all_goals simp only [List.length_cons, List.length_drop]
    all_goals omega

/-- A freshly constructed session (constructor, lines 28-37). -/
def st_created : SessionState :=
  { inited := false, streaming := false, keep_alive := false, serial := none,
    state := SYNC_TIMEOUT_ERROR, timeout := 0 }

/-- A prepared, streaming session, used by concrete witnesses. -/
def st_streaming : SessionState :=
  { inited := true, streaming := true, keep_alive := true, serial := some (),
    state := STATUS_OK, timeout := 3 }

/-- A decode context with pairwise distinct scale factors and a constant
32-bit-float decoder, used by concrete witnesses. -/
def ctx_distinct : DecodeCtx :=
  { emg_scale := 1, eeg_scale_sister_board := 2, eeg_scale_main_board := 3,
    half_rtt := 5, time_delta := 7, pc_timestamp := 11,
    f32dec := fun _ _ _ _ => 13 }

/-- A one-base-package, one-sub-package layout on a tiny byte budget, used
by concrete witnesses (the real constants live in `galea_serial.h`, outside
the decoded sources; every theorem quantifies over the layout). -/
def layout_small : FrameLayout :=
  { num_base_packages := 1, bytes_in_single_entry := 0, exg_package_size := 0,
    num_exg_packages_per_base := 1, transaction_size := 2,
    start_byte := 160, stop_byte := 192 }

/-- The all-ones byte buffer, used by concrete witnesses. -/
def bytes_one : ℕ → ℕ := fun _ => 1

/-- C9: `prepare_session` keeps an in-range timeout unchanged and replaces
an out-of-range one by the default 3; the value used always lies in
[1, 600]. -/
theorem prepare_timeout_normalization (st : SessionState) (timeout : ℤ)
    (env : PrepareEnv) (h1 : st.inited = false) :
    (prepare_session st false timeout env).1.timeout =
      (if 1 ≤ timeout ∧ timeout ≤ 600 then timeout else 3) ∧
    1 ≤ (prepare_session st false timeout env).1.timeout ∧
    (prepare_session st false timeout env).1.timeout ≤ 600 := by
  unfold prepare_session
  simp only [h1, Bool.false_eq_true, if_false]
  split_ifs <;> simp_all <;> omega

/-- Witness for C9 at a concrete out-of-range timeout. -/
theorem prepare_timeout_normalization_witness :
    (prepare_session st_created false 1000 ⟨0, 0, 0, 0, 0⟩).1.timeout =
      (if 1 ≤ (1000 : ℤ) ∧ (1000 : ℤ) ≤ 600 then 1000 else 3) ∧
    1 ≤ (prepare_session st_created false 1000 ⟨0, 0, 0, 0, 0⟩).1.timeout ∧
    (prepare_session st_created false 1000 ⟨0, 0, 0, 0, 0⟩).1.timeout ≤ 600 :=
  prepare_timeout_normalization st_created 1000 ⟨0, 0, 0, 0, 0⟩ rfl

/-- C10: a clock-sync probe that fails (short write of the 5-byte command
or short read of the 4-byte reply) leaves `half_rtt` unchanged and returns
the write error; only a fully successful probe updates `half_rtt` to half
the elapsed time. -/
theorem calc_time_failure_preserves_half_rtt (h : ℚ) :
    (∀ (sendRes recvRes : ℤ) (start done : ℚ), sendRes ≠ 5 ∨ recvRes ≠ 4 →
      calc_time h sendRes recvRes start done = (h, BOARD_WRITE_ERROR)) ∧
    (∀ start done : ℚ, calc_time h 5 4 start done = ((done - start) / 2, STATUS_OK)) := by
  constructor
  · intro sendRes recvRes start done hfail
    unfold calc_time
    split_ifs with h1 h2
    · rfl
    · rfl
    · exfalso
      rcases hfail with hf | hf
      · exact absurd hf h1
      · exact absurd hf h2
  · intro start done
    simp [calc_time]

/-- Witness for C10: a short write with `half_rtt = 7` keeps 7; a
successful probe from time 1 to time 9 sets `half_rtt = 4`. -/
theorem calc_time_failure_witness :
    calc_time 7 0 4 0 0 = (7, BOARD_WRITE_ERROR) ∧
    calc_time 7 5 4 1 9 = (4, STATUS_OK) := by
  constructor
  · exact (calc_time_failure_preserves_half_rtt 7).1 0 4 0 0 (Or.inl (by decide))
  · have h := (calc_time_failure_preserves_half_rtt 7).2 1 9
    rw [h]
    norm_num

/-- C5 counterexample: when `open_serial_port` fails, `prepare_session`
returns the port error with the session still not prepared, but the
`Serial` object is retained (`serial = some ()`), not deleted — the claim
that every failure branch releases the Transport is false on this
branch. -/
theorem prepare_open_failure_keeps_serial :
    (prepare_session st_created false 3 ⟨-1, 0, 0, 0, 0⟩).2 = UNABLE_TO_OPEN_PORT_ERROR ∧
    (prepare_session st_created false 3 ⟨-1, 0, 0, 0, 0⟩).1.serial = some () ∧
    (prepare_session st_created false 3 ⟨-1, 0, 0, 0, 0⟩).1.inited = false := by
  decide

/-- C5 amended: every failure of `prepare_session` leaves the session not
prepared; the Transport is released in the port-settings, baud-rate and
initial-command failure branches, retained in the port-open failure
branch, and untouched by the configuration-validation failure. -/
theorem prepare_failure_state (st : SessionState) (portEmpty : Bool) (timeout : ℤ)
    (env : PrepareEnv)
    (hfail : (prepare_session st portEmpty timeout env).2 ≠ STATUS_OK) :
    (prepare_session st portEmpty timeout env).1.inited = false ∧
    st.inited = false ∧
    ((prepare_session st portEmpty timeout env).2 = SET_PORT_ERROR ∨
      (prepare_session st portEmpty timeout env).2 = BOARD_NOT_READY_ERROR →
      (prepare_session st portEmpty timeout env).1.serial = none) ∧
    ((prepare_session st portEmpty timeout env).2 = UNABLE_TO_OPEN_PORT_ERROR →
      (prepare_session st portEmpty timeout env).1.serial = some ()) ∧
    ((prepare_session st portEmpty timeout env).2 = INVALID_ARGUMENTS_ERROR →
      (prepare_session st portEmpty timeout env).1 = st) := by
  cases hin : st.inited with
  | true =>
    unfold prepare_session at hfail
    simp [hin] at hfail
  | false =>
    unfold prepare_session at *
    simp only [hin, Bool.false_eq_true, if_false] at hfail ⊢
    split_ifs at * <;> simp_all

/-- Witness for C5 amended, at the port-settings failure branch. -/
theorem prepare_failure_state_witness :
    (prepare_session st_created false 3 ⟨0, -1, 0, 0, 0⟩).1.inited = false ∧
    st_created.inited = false ∧
    ((prepare_session st_created false 3 ⟨0, -1, 0, 0, 0⟩).2 = SET_PORT_ERROR ∨
      (prepare_session st_created false 3 ⟨0, -1, 0, 0, 0⟩).2 = BOARD_NOT_READY_ERROR →
      (prepare_session st_created false 3 ⟨0, -1, 0, 0, 0⟩).1.serial = none) ∧
    ((prepare_session st_created false 3 ⟨0, -1, 0, 0, 0⟩).2 = UNABLE_TO_OPEN_PORT_ERROR →
      (prepare_session st_created false 3 ⟨0, -1, 0, 0, 0⟩).1.serial = some ()) ∧
    ((prepare_session st_created false 3 ⟨0, -1, 0, 0, 0⟩).2 = INVALID_ARGUMENTS_ERROR →
      (prepare_session st_created false 3 ⟨0, -1, 0, 0, 0⟩).1 = st_created) :=
  prepare_failure_state st_created false 3 ⟨0, -1, 0, 0, 0⟩ (by decide)

/-- C7 counterexample: the clock-probe command while streaming and a
command sent before `prepare` both return `BOARD_NOT_CREATED_ERROR` — the
four lifecycle-misuse cases do not all carry distinct error codes. -/
theorem lifecycle_codes_not_distinct :
    config_board true true "calc_time" 0 STATUS_OK = BOARD_NOT_CREATED_ERROR ∧
    config_board false false "b" 2 STATUS_OK = BOARD_NOT_CREATED_ERROR := by
  decide

/-- C7 amended: each lifecycle-misuse case is rejected immediately;
start-while-streaming and stop-while-not-streaming carry codes distinct
from each other and from the other two cases, but probe-while-streaming
and command-before-prepare share `BOARD_NOT_CREATED_ERROR`. -/
theorem lifecycle_misuse_codes (rest probeRes : ExitCode) (conf : String)
    (sendRes : ℤ) (st : SessionState) (reads : ℕ → ℤ)
    (hstream : st.streaming = false) :
    start_stream_entry true true rest = STREAM_ALREADY_RUN_ERROR ∧
    (stop_stream st sendRes reads).2 = STREAM_THREAD_IS_NOT_RUNNING ∧
    config_board true true "calc_time" sendRes probeRes = BOARD_NOT_CREATED_ERROR ∧
    config_board false st.streaming conf sendRes probeRes = BOARD_NOT_CREATED_ERROR ∧
    STREAM_ALREADY_RUN_ERROR ≠ STREAM_THREAD_IS_NOT_RUNNING ∧
    STREAM_ALREADY_RUN_ERROR ≠ BOARD_NOT_CREATED_ERROR ∧
    STREAM_THREAD_IS_NOT_RUNNING ≠ BOARD_NOT_CREATED_ERROR := by
  refine ⟨by simp [start_stream_entry], ?_, by simp [config_board], by simp [config_board],
    by decide, by decide, by decide⟩
  simp [stop_stream, hstream]

/-- Witness for C7 amended on a fresh session. -/
theorem lifecycle_misuse_codes_witness :
    start_stream_entry true true STATUS_OK = STREAM_ALREADY_RUN_ERROR ∧
    (stop_stream st_created 0 (fun _ => 0)).2 = STREAM_THREAD_IS_NOT_RUNNING ∧
    config_board true true "calc_time" 0 STATUS_OK = BOARD_NOT_CREATED_ERROR ∧
    config_board false st_created.streaming "b" 0 STATUS_OK = BOARD_NOT_CREATED_ERROR ∧
    STREAM_ALREADY_RUN_ERROR ≠ STREAM_THREAD_IS_NOT_RUNNING ∧
    STREAM_ALREADY_RUN_ERROR ≠ BOARD_NOT_CREATED_ERROR ∧
    STREAM_THREAD_IS_NOT_RUNNING ≠ BOARD_NOT_CREATED_ERROR :=
  lifecycle_misuse_codes STATUS_OK STATUS_OK "b" 0 st_created (fun _ => 0) rfl

/-- If every drain read up to the attempt cap keeps returning 1, the drain
loop reports failure once the attempt counter reaches 40000. -/
lemma drain_loop_all_ones (reads : ℕ → ℤ)
    (h : ∀ i, i < 39999 → reads i = 1) :
    ∀ (fuel attempt : ℕ), attempt + fuel = 40000 → 0 < fuel →
      drain_loop reads attempt fuel = false := by
  intro fuel
  induction fuel with
  | zero => omega
  | succ n ih =>
    intro attempt hsum _
    unfold drain_loop
    by_cases hc : attempt + 1 = 40000
    · simp [hc]
    · have hr : reads attempt = 1 := h attempt (by omega)
      simp only [hc, if_false, hr, if_pos]
      exact ih (attempt + 1) (by omega) (by omega)

/-- C8: `stop_stream` on a streaming session clears the run flag and the
streaming flag; if the stop command is written but every drain read keeps
returning one byte, the attempt cap of 40000 fires and the call returns
the fatal write error, yet the session already counts as stopped — a
second `stop_stream` returns the thread-not-running error without
draining. -/
theorem stop_drain_cap (st : SessionState) (reads : ℕ → ℤ)
    (hs : st.streaming = true) (hr : ∀ i, i < 39999 → reads i = 1) :
    (stop_stream st 2 reads).2 = BOARD_WRITE_ERROR ∧
    (stop_stream st 2 reads).1.streaming = false ∧
    (stop_stream st 2 reads).1.keep_alive = false ∧
    (∀ (sendRes2 : ℤ) (reads2 : ℕ → ℤ),
      stop_stream (stop_stream st 2 reads).1 sendRes2 reads2 =
        ((stop_stream st 2 reads).1, STREAM_THREAD_IS_NOT_RUNNING)) := by
  have hdrain : drain_loop reads 0 40000 = false :=
    drain_loop_all_ones reads hr 40000 0 rfl (by omega)
  unfold stop_stream
  simp [hs, hdrain]

/-- Witness for C8 on a streaming session whose transport keeps feeding
bytes forever. -/
theorem stop_drain_cap_witness :
    (stop_stream st_streaming 2 (fun _ => 1)).2 = BOARD_WRITE_ERROR ∧
    (stop_stream st_streaming 2 (fun _ => 1)).1.streaming = false ∧
    (stop_stream st_streaming 2 (fun _ => 1)).1.keep_alive = false ∧
    (∀ (sendRes2 : ℤ) (reads2 : ℕ → ℤ),
      stop_stream (stop_stream st_streaming 2 (fun _ => 1)).1 sendRes2 reads2 =
        ((stop_stream st_streaming 2 (fun _ => 1)).1, STREAM_THREAD_IS_NOT_RUNNING)) :=
  stop_drain_cap st_streaming (fun _ => 1) rfl (fun _ _ => rfl)

/-- Adding a delta never grows the buffer beyond its capacity of 11. -/
lemma data_buffer_add_length (buf : List ℚ) (d : ℚ) (h : buf.length ≤ 11) :
    (data_buffer_add buf d).length ≤ 11 := by
  unfold data_buffer_add
  split_ifs with hlt
  · simp
    omega
  · cases buf with
    | nil => simp at hlt
    | cons a t =>
      simp only [List.length_cons] at h
      simp only [List.tail_cons, List.length_append, List.length_cons,
        List.length_nil]
      omega

/-- Folding deltas into a buffer that holds at most 11 entries keeps
exactly the 11 most recent of all entries seen. -/
lemma foldl_data_buffer_add :
    ∀ (obs buf : List ℚ), buf.length ≤ 11 →
      obs.foldl data_buffer_add buf = (buf ++ obs).drop ((buf ++ obs).length - 11) := by
  intro obs
  induction obs with
  | nil =>
    intro buf h
    simp [Nat.sub_eq_zero_of_le h]
  | cons d tl ih =>
    intro buf h
    rw [List.foldl_cons, ih (data_buffer_add buf d) (data_buffer_add_length buf d h)]
    unfold data_buffer_add
    split_ifs with hlt
    · rw [List.append_assoc, List.singleton_append]
    · cases buf with
      | nil => simp at hlt
      | cons a t =>
        have ht : t.length = 10 := by
          simp only [List.length_cons] at h hlt
          omega
        simp only [List.tail_cons, List.append_assoc, List.singleton_append]
        have e1 : (t ++ d :: tl).length - 11 = tl.length := by
          simp only [List.length_append, List.length_cons, ht]
          omega
        have e2 : ((a :: t) ++ d :: tl).length - 11 = tl.length + 1 := by
          simp only [List.length_append, List.length_cons, ht]
          omega
        rw [e1, e2, List.cons_append, List.drop_succ_cons]

/-- C4: after any sequence of per-frame delta observations, the value read
back from the buffer is the at-most-10 most recent deltas with the oldest
evicted, the smoothed offset is their arithmetic mean, and feeding 10
identical observations followed by one outlier shifts the smoothed offset
by exactly one tenth of the outlier's deviation. -/
theorem smoothed_offset_moving_average :
    (∀ obs : List ℚ, get_current_data 10 (offset_history obs) =
      obs.drop (obs.length - 10)) ∧
    (∀ obs : List ℚ, smoothed_offset (offset_history obs) =
      (obs.drop (obs.length - 10)).sum / ((obs.drop (obs.length - 10)).length : ℚ)) ∧
    (∀ x y : ℚ,
      smoothed_offset (offset_history (List.replicate 10 x ++ [y])) - x = (y - x) / 10) := by
  have hist_eq : ∀ obs : List ℚ, offset_history obs = obs.drop (obs.length - 11) := by
    intro obs
    unfold offset_history
    have h := foldl_data_buffer_add obs [] (by simp)
    simpa using h
  have part1 : ∀ obs : List ℚ,
      get_current_data 10 (offset_history obs) = obs.drop (obs.length - 10) := by
    intro obs
    rw [hist_eq]
    unfold get_current_data
    rw [List.length_drop, List.drop_drop]
    congr 1
    omega
  refine ⟨part1, ?_, ?_⟩
  · intro obs
    unfold smoothed_offset
    rw [part1]
  · intro x y
    unfold smoothed_offset
    rw [part1]
    have hd : (List.replicate 10 x ++ [y]).drop
        ((List.replicate 10 x ++ [y]).length - 10) = List.replicate 9 x ++ [y] := by
      have h10 : List.replicate 10 x = x :: List.replicate 9 x := rfl
      simp [h10]
    rw [hd]
    simp only [List.sum_append, List.sum_replicate, List.length_append,
      List.length_replicate, List.sum_cons, List.sum_nil, List.length_cons,
      List.length_nil, nsmul_eq_mul]
    push_cast
    field_simp
    ring

lemma decode_exg_packageNum (L : FrameLayout) (ctx : DecodeCtx) (b : ℕ → ℕ)
    (prev : SampleRow) (k j : ℕ) :
    (decode_exg L ctx b prev k j).packageNum = prev.packageNum + 1 := rfl

lemma decode_exg_eda (L : FrameLayout) (ctx : DecodeCtx) (b : ℕ → ℕ)
    (prev : SampleRow) (k j : ℕ) :
    (decode_exg L ctx b prev k j).eda = prev.eda := rfl

lemma decode_exg_ppgRed (L : FrameLayout) (ctx : DecodeCtx) (b : ℕ → ℕ)
    (prev : SampleRow) (k j : ℕ) :
    (decode_exg L ctx b prev k j).ppgRed = prev.ppgRed := rfl

lemma decode_exg_ppgIr (L : FrameLayout) (ctx : DecodeCtx) (b : ℕ → ℕ)
    (prev : SampleRow) (k j : ℕ) :
    (decode_exg L ctx b prev k j).ppgIr = prev.ppgIr := rfl

lemma decode_exg_temperature (L : FrameLayout) (ctx : DecodeCtx) (b : ℕ → ℕ)
    (prev : SampleRow) (k j : ℕ) :
    (decode_exg L ctx b prev k j).temperature = prev.temperature := rfl

lemma decode_exg_battery (L : FrameLayout) (ctx : DecodeCtx) (b : ℕ → ℕ)
    (prev : SampleRow) (k j : ℕ) :
    (decode_exg L ctx b prev k j).battery = prev.battery := rfl

/-- `decode_exg` reads its previous row state only through the counter and
the auxiliary fields it inherits. -/
lemma decode_exg_congr (L : FrameLayout) (ctx : DecodeCtx) (b : ℕ → ℕ)
    (p q : SampleRow) (k j : ℕ)
    (h1 : p.packageNum = q.packageNum) (h2 : p.eda = q.eda)
    (h3 : p.ppgRed = q.ppgRed) (h4 : p.ppgIr = q.ppgIr)
    (h5 : p.temperature = q.temperature) (h6 : p.battery = q.battery) :
    decode_exg L ctx b p k j = decode_exg L ctx b q k j := by
  unfold decode_exg
  ext <;> simp [h1, h2, h3, h4, h5, h6]

lemma exg_chain_length (L : FrameLayout) (ctx : DecodeCtx) (b : ℕ → ℕ) (k : ℕ) :
    ∀ (fuel j : ℕ) (prev : SampleRow),
      (exg_chain L ctx b k prev j fuel).length = fuel := by
  intro fuel
  induction fuel with
  | zero => intro j prev; rfl
  | succ n ih =>
    intro j prev
    simp only [exg_chain, List.length_cons, ih]

/-- The `i`-th row of the compact sub-package chain equals `decode_exg`
applied at sub-package index `j + i` to the initial row state with its
counter advanced by `i`. -/
lemma exg_chain_get (L : FrameLayout) (ctx : DecodeCtx) (b : ℕ → ℕ) (k : ℕ) :
    ∀ (fuel j i : ℕ) (prev : SampleRow), i < fuel →
      (exg_chain L ctx b k prev j fuel)[i]? =
        some (decode_exg L ctx b
          { prev with packageNum := prev.packageNum + (i : ℚ) } k (j + i)) := by
  intro fuel
  induction fuel with
  | zero => intro j i prev h; omega
  | succ n ih =>
    intro j i prev _
    cases i with
    | zero =>
      simp only [exg_chain, List.getElem?_cons_zero, Nat.add_zero, Nat.cast_zero,
        Option.some.injEq]
      exact decode_exg_congr L ctx b prev _ k j (by simp) rfl rfl rfl rfl rfl
    | succ m =>
      by_cases hm : m < n
      · simp only [exg_chain, List.getElem?_cons_succ]
        rw [ih (j + 1) m (decode_exg L ctx b prev k j) hm]
        have hj : j + 1 + m = j + (m + 1) := by omega
        rw [hj]
        congr 1
        refine decode_exg_congr L ctx b _ _ k _ ?_ rfl rfl rfl rfl rfl
        show (decode_exg L ctx b prev k j).packageNum + (m : ℚ) =
          prev.packageNum + ((m + 1 : ℕ) : ℚ)
        rw [decode_exg_packageNum]
        push_cast
        ring
      · omega

lemma decode_base_length (L : FrameLayout) (ctx : DecodeCtx) (b : ℕ → ℕ) (k : ℕ) :
    (decode_base L ctx b k).length = 1 + L.num_exg_packages_per_base := by
  unfold decode_base
  simp [exg_chain_length]
  omega

lemma flatten_map_range_length {α : Type} (f : ℕ → List α) (c : ℕ)
    (hc : ∀ k, (f k).length = c) :
    ∀ N, (((List.range N).map f).flatten).length = N * c := by
  intro N
  induction N with
  | zero => simp
  | succ n ih =>
    rw [List.range_succ, List.map_append, List.flatten_append]
    simp [ih, hc, Nat.succ_mul]

lemma flatten_map_range_get {α : Type} (f : ℕ → List α) (c : ℕ)
    (hc : ∀ k, (f k).length = c) :
    ∀ (N k r : ℕ), k < N → r < c →
      (((List.range N).map f).flatten)[k * c + r]? = (f k)[r]? := by
  intro N
  induction N with
  | zero => intro k r hk _; omega
  | succ n ih =>
    intro k r hk hr
    rw [List.range_succ, List.map_append, List.flatten_append]
    by_cases hkn : k < n
    · have hlen : k * c + r < (((List.range n).map f).flatten).length := by
        rw [flatten_map_range_length f c hc n]
        have h3 : (k + 1) * c ≤ n * c := Nat.mul_le_mul_right c (by omega)
        have h2 : (k + 1) * c = k * c + c := by ring
        omega
      rw [List.getElem?_append_left hlen]
      exact ih k r hkn hr
    · have hk' : k = n := by omega
      subst hk'
      have hlen : (((List.range k).map f).flatten).length ≤ k * c + r := by
        rw [flatten_map_range_length f c hc k]
        omega
      rw [List.getElem?_append_right hlen]
      rw [flatten_map_range_length f c hc k]
      simp only [List.map_cons, List.map_nil, List.flatten_cons,
        List.flatten_nil, List.append_nil]
      congr 1
      omega

/-- The row pushed at position `k * (1 + M)` of a decoded frame is the
dense row of base package `k`. -/
lemma decode_frame_get_dense (L : FrameLayout) (ctx : DecodeCtx) (b : ℕ → ℕ)
    (k : ℕ) (hk : k < L.num_base_packages) :
    (decode_frame L ctx b)[k * (1 + L.num_exg_packages_per_base)]? =
      some (decode_dense L ctx b k) := by
  unfold decode_frame
  have h := flatten_map_range_get (decode_base L ctx b)
    (1 + L.num_exg_packages_per_base) (decode_base_length L ctx b)
    L.num_base_packages k 0 hk (by omega)
  rw [Nat.add_zero] at h
  rw [h]
  simp [decode_base, List.getElem?_cons_zero]

/-- The row pushed at position `k * (1 + M) + (j + 1)` of a decoded frame
is compact sub-package `j` of base package `k`, decoded from the dense row
with its counter advanced by `j`. -/
lemma decode_frame_get_exg (L : FrameLayout) (ctx : DecodeCtx) (b : ℕ → ℕ)
    (k j : ℕ) (hk : k < L.num_base_packages)
    (hj : j < L.num_exg_packages_per_base) :
    (decode_frame L ctx b)[k * (1 + L.num_exg_packages_per_base) + (j + 1)]? =
      some (decode_exg L ctx b
        { decode_dense L ctx b k with
          packageNum := (decode_dense L ctx b k).packageNum + (j : ℚ) } k j) := by
  unfold decode_frame
  have h := flatten_map_range_get (decode_base L ctx b)
    (1 + L.num_exg_packages_per_base) (decode_base_length L ctx b)
    L.num_base_packages k (j + 1) hk (by omega)
  rw [h]
  simp only [decode_base, List.getElem?_cons_succ]
  rw [exg_chain_get L ctx b k L.num_exg_packages_per_base 0 j
    (decode_dense L ctx b k) hj]
  rw [Nat.zero_add]

/-- C3: decoding one validated frame yields `N * (1 + M)` rows in on-wire
order; the row at `k * (1 + M)` is the dense row of base package `k`, and
for each `j < M` the row at `k * (1 + M) + (j + 1)` is a compact row whose
counter is the dense counter plus `j + 1` and whose auxiliary channels
(EDA, PPG red/IR, temperature, battery) are inherited from the dense
row. -/
theorem decode_frame_row_structure (L : FrameLayout) (ctx : DecodeCtx) (b : ℕ → ℕ) :
    (decode_frame L ctx b).length =
      L.num_base_packages * (1 + L.num_exg_packages_per_base) ∧
    (∀ k, k < L.num_base_packages →
      (decode_frame L ctx b)[k * (1 + L.num_exg_packages_per_base)]? =
        some (decode_dense L ctx b k)) ∧
    (∀ k j, k < L.num_base_packages → j < L.num_exg_packages_per_base →
      ∃ r, (decode_frame L ctx b)[k * (1 + L.num_exg_packages_per_base) + (j + 1)]? =
          some r ∧
        r.packageNum = (decode_dense L ctx b k).packageNum + ((j : ℚ) + 1) ∧
        r.eda = (decode_dense L ctx b k).eda ∧
        r.ppgRed = (decode_dense L ctx b k).ppgRed ∧
        r.ppgIr = (decode_dense L ctx b k).ppgIr ∧
        r.temperature = (decode_dense L ctx b k).temperature ∧
        r.battery = (decode_dense L ctx b k).battery) := by
  refine ⟨?_, fun k hk => decode_frame_get_dense L ctx b k hk, ?_⟩
  · unfold decode_frame
    exact flatten_map_range_length (decode_base L ctx b) _
      (decode_base_length L ctx b) L.num_base_packages
  · intro k j hk hj
    refine ⟨_, decode_frame_get_exg L ctx b k j hk hj, ?_, rfl, rfl, rfl, rfl, rfl⟩
    rw [decode_exg_packageNum]
    simp
    ring

/-- Witness for C3 on a concrete one-base-package, one-sub-package
layout. -/
theorem decode_frame_row_structure_witness :
    (decode_frame layout_small ctx_distinct bytes_one).length =
      layout_small.num_base_packages * (1 + layout_small.num_exg_packages_per_base) ∧
    (decode_frame layout_small ctx_distinct bytes_one)[0 * (1 + layout_small.num_exg_packages_per_base)]? =
      some (decode_dense layout_small ctx_distinct bytes_one 0) ∧
    ∃ r, (decode_frame layout_small ctx_distinct bytes_one)[0 * (1 + layout_small.num_exg_packages_per_base) + (0 + 1)]? =
        some r ∧
      r.packageNum = (decode_dense layout_small ctx_distinct bytes_one 0).packageNum + (((0 : ℕ) : ℚ) + 1) ∧
      r.eda = (decode_dense layout_small ctx_distinct bytes_one 0).eda ∧
      r.ppgRed = (decode_dense layout_small ctx_distinct bytes_one 0).ppgRed ∧
      r.ppgIr = (decode_dense layout_small ctx_distinct bytes_one 0).ppgIr ∧
      r.temperature = (decode_dense layout_small ctx_distinct bytes_one 0).temperature ∧
      r.battery = (decode_dense layout_small ctx_distinct bytes_one 0).battery := by
  obtain ⟨h1, h2, h3⟩ := decode_frame_row_structure layout_small ctx_distinct bytes_one
  exact ⟨h1, h2 0 (by decide), h3 0 0 (by decide) (by decide)⟩

/-- Any row of the compact sub-package chain is a `decode_exg` row at some
sub-package index within range. -/
lemma exg_chain_mem (L : FrameLayout) (ctx : DecodeCtx) (b : ℕ → ℕ) (k : ℕ) :
    ∀ (fuel j : ℕ) (prev r : SampleRow),
      r ∈ exg_chain L ctx b k prev j fuel →
      ∃ p j', j ≤ j' ∧ j' < j + fuel ∧ r = decode_exg L ctx b p k j' := by
  intro fuel
  induction fuel with
  | zero => intro j prev r h; simp [exg_chain] at h
  | succ n ih =>
    intro j prev r h
    simp only [exg_chain] at h
    rcases List.mem_cons.mp h with hr | hmem
    · exact ⟨prev, j, le_refl j, by omega, hr⟩
    · obtain ⟨p, j', h1, h2, h3⟩ := ih (j + 1) _ r hmem
      exact ⟨p, j', by omega, by omega, h3⟩

/-- C1: every row of a decoded frame has timestamp channel equal to the
device timestamp (decoded from its 32-bit-float milliseconds field and
converted to seconds) plus the smoothed offset minus the half-round-trip
time, and its two diagnostic channels hold the frame's host-arrival
timestamp and the device timestamp; the device timestamp is read at byte
offset 64 of the dense package or offset 48 of the compact sub-package. -/
theorem timestamp_channel_correct (L : FrameLayout) (ctx : DecodeCtx)
    (b : ℕ → ℕ) (r : SampleRow) (hr : r ∈ decode_frame L ctx b) :
    r.timestamp = r.deviceTimestamp + ctx.time_delta - ctx.half_rtt ∧
    r.hostTimestamp = ctx.pc_timestamp ∧
    ((∃ k, k < L.num_base_packages ∧
        r.deviceTimestamp = read_f32 ctx b (64 + k * L.bytes_in_single_entry) / 1000) ∨
      (∃ k j, k < L.num_base_packages ∧ j < L.num_exg_packages_per_base ∧
        r.deviceTimestamp = read_f32 ctx b
          (48 + (k * L.bytes_in_single_entry + L.exg_package_size * j)) / 1000)) := by
  unfold decode_frame at hr
  rw [List.mem_flatten] at hr
  obtain ⟨l, hl, hrl⟩ := hr
  rw [List.mem_map] at hl
  obtain ⟨k, hk, rfl⟩ := hl
  rw [List.mem_range] at hk
  unfold decode_base at hrl
  rcases List.mem_cons.mp hrl with rfl | hmem
  · exact ⟨rfl, rfl, Or.inl ⟨k, hk, rfl⟩⟩
  · obtain ⟨p, j, _, hjlt, rfl⟩ := exg_chain_mem L ctx b k _ _ _ _ hmem
    exact ⟨rfl, rfl, Or.inr ⟨k, j, hk, by omega, rfl⟩⟩

/-- Witness for C1 at the dense row of a concrete layout. -/
theorem timestamp_channel_correct_witness :
    (decode_dense layout_small ctx_distinct bytes_one 0).timestamp =
      (decode_dense layout_small ctx_distinct bytes_one 0).deviceTimestamp +
        ctx_distinct.time_delta - ctx_distinct.half_rtt ∧
    (decode_dense layout_small ctx_distinct bytes_one 0).hostTimestamp =
      ctx_distinct.pc_timestamp ∧
    ((∃ k, k < layout_small.num_base_packages ∧
        (decode_dense layout_small ctx_distinct bytes_one 0).deviceTimestamp =
          read_f32 ctx_distinct bytes_one
            (64 + k * layout_small.bytes_in_single_entry) / 1000) ∨
      (∃ k j, k < layout_small.num_base_packages ∧
        j < layout_small.num_exg_packages_per_base ∧
        (decode_dense layout_small ctx_distinct bytes_one 0).deviceTimestamp =
          read_f32 ctx_distinct bytes_one
            (48 + (k * layout_small.bytes_in_single_entry +
              layout_small.exg_package_size * j)) / 1000)) :=
  timestamp_channel_correct layout_small ctx_distinct bytes_one
    (decode_dense layout_small ctx_distinct bytes_one 0)
    (by
      have hmem : decode_dense layout_small ctx_distinct bytes_one 0 ∈
          decode_base layout_small ctx_distinct bytes_one 0 := by
        unfold decode_base
        exact List.mem_cons_self _ _
      unfold decode_frame
      rw [List.mem_flatten]
      exact ⟨decode_base layout_small ctx_distinct bytes_one 0,
        List.mem_map.mpr ⟨0, List.mem_range.mpr (by decide), rfl⟩, hmem⟩)

/-- C2 counterexample: with pairwise distinct scale factors and an
all-ones buffer (every 24-bit sample decodes to 65793), sample position 7
is scaled by the sister-board factor in the dense row but by the
main-board factor in the compact row, and position 11 the other way
around — the dense and compact position-to-scale tables are not the same
table. -/
theorem scale_positions_differ_counterexample :
    (decode_dense layout_small ctx_distinct bytes_one 0).exg ⟨7, by norm_num⟩ =
      ctx_distinct.eeg_scale_sister_board * 65793 ∧
    (decode_exg layout_small ctx_distinct bytes_one
      (decode_dense layout_small ctx_distinct bytes_one 0) 0 0).exg ⟨7, by norm_num⟩ =
      ctx_distinct.eeg_scale_main_board * 65793 ∧
    (decode_dense layout_small ctx_distinct bytes_one 0).exg ⟨11, by norm_num⟩ =
      ctx_distinct.eeg_scale_main_board * 65793 ∧
    (decode_exg layout_small ctx_distinct bytes_one
      (decode_dense layout_small ctx_distinct bytes_one 0) 0 0).exg ⟨11, by norm_num⟩ =
      ctx_distinct.eeg_scale_sister_board * 65793 ∧
    ctx_distinct.eeg_scale_sister_board ≠ ctx_distinct.eeg_scale_main_board := by
  refine ⟨?_, ?_, ?_, ?_, ?_⟩ <;>
    norm_num [decode_dense, decode_exg, dense_scale, exg_scale_sel, ctx_distinct,
      bytes_one, layout_small, cast_24bit_to_int32]

/-- C2 amended: the position-to-scale mapping is a fixed table, the same
for every dense package and for every compact sub-package of every frame,
but the two tables differ: the first six positions use the primary sensor
group factor in both, the sister-board factor applies to positions 6 and 7
in dense packages and to positions 6 and 11 in compact sub-packages, and
all remaining positions use the main-board factor. -/
theorem scale_table_fixed_per_kind (L : FrameLayout) (ctx : DecodeCtx)
    (b : ℕ → ℕ) (k j : ℕ) (t : Fin 16)
    (hk : k < L.num_base_packages) (hj : j < L.num_exg_packages_per_base) :
    (∃ r, (decode_frame L ctx b)[k * (1 + L.num_exg_packages_per_base)]? = some r ∧
      r.exg t = (if (t : ℕ) < 6 then ctx.emg_scale
        else if (t : ℕ) = 6 ∨ (t : ℕ) = 7 then ctx.eeg_scale_sister_board
        else ctx.eeg_scale_main_board) *
        ((cast_24bit_to_int32
          (b (k * L.bytes_in_single_entry + 5 + 3 * (t : ℕ)))
          (b (k * L.bytes_in_single_entry + 5 + 3 * (t : ℕ) + 1))
          (b (k * L.bytes_in_single_entry + 5 + 3 * (t : ℕ) + 2)) : ℤ) : ℚ)) ∧
    (∃ r, (decode_frame L ctx b)[k * (1 + L.num_exg_packages_per_base) + (j + 1)]? =
        some r ∧
      r.exg t = (if (t : ℕ) < 6 then ctx.emg_scale
        else if (t : ℕ) = 6 ∨ (t : ℕ) = 11 then ctx.eeg_scale_sister_board
        else ctx.eeg_scale_main_board) *
        ((cast_24bit_to_int32
          (b (k * L.bytes_in_single_entry + L.exg_package_size * j + 3 * (t : ℕ)))
          (b (k * L.bytes_in_single_entry + L.exg_package_size * j + 3 * (t : ℕ) + 1))
          (b (k * L.bytes_in_single_entry + L.exg_package_size * j + 3 * (t : ℕ) + 2)) : ℤ) : ℚ)) := by
  refine ⟨⟨_, decode_frame_get_dense L ctx b k hk, ?_⟩,
    ⟨_, decode_frame_get_exg L ctx b k j hk hj, ?_⟩⟩
  · rfl
  · rfl

/-- Witness for C2 amended at position 7 of a concrete layout. -/
theorem scale_table_fixed_per_kind_witness :
    (∃ r, (decode_frame layout_small ctx_distinct bytes_one)[0 * (1 + layout_small.num_exg_packages_per_base)]? = some r ∧
      r.exg 7 = (if ((7 : Fin 16) : ℕ) < 6 then ctx_distinct.emg_scale
        else if ((7 : Fin 16) : ℕ) = 6 ∨ ((7 : Fin 16) : ℕ) = 7 then ctx_distinct.eeg_scale_sister_board
        else ctx_distinct.eeg_scale_main_board) *
        ((cast_24bit_to_int32
          (bytes_one (0 * layout_small.bytes_in_single_entry + 5 + 3 * ((7 : Fin 16) : ℕ)))
          (bytes_one (0 * layout_small.bytes_in_single_entry + 5 + 3 * ((7 : Fin 16) : ℕ) + 1))
          (bytes_one (0 * layout_small.bytes_in_single_entry + 5 + 3 * ((7 : Fin 16) : ℕ) + 2)) : ℤ) : ℚ)) ∧
    (∃ r, (decode_frame layout_small ctx_distinct bytes_one)[0 * (1 + layout_small.num_exg_packages_per_base) + (0 + 1)]? = some r ∧
      r.exg 7 = (if ((7 : Fin 16) : ℕ) < 6 then ctx_distinct.emg_scale
        else if ((7 : Fin 16) : ℕ) = 6 ∨ ((7 : Fin 16) : ℕ) = 11 then ctx_distinct.eeg_scale_sister_board
        else ctx_distinct.eeg_scale_main_board) *
        ((cast_24bit_to_int32
          (bytes_one (0 * layout_small.bytes_in_single_entry + layout_small.exg_package_size * 0 + 3 * ((7 : Fin 16) : ℕ)))
          (bytes_one (0 * layout_small.bytes_in_single_entry + layout_small.exg_package_size * 0 + 3 * ((7 : Fin 16) : ℕ) + 1))
          (bytes_one (0 * layout_small.bytes_in_single_entry + layout_small.exg_package_size * 0 + 3 * ((7 : Fin 16) : ℕ) + 2)) : ℤ) : ℚ)) :=
  scale_table_fixed_per_kind layout_small ctx_distinct bytes_one 0 0 7
    (by decide) (by decide)

/-- Bytes that are not the start sentinel are discarded one at a time with
no decode attempted. -/
lemma process_stream_skip (L : FrameLayout) (ctxs : ℕ → DecodeCtx) (n : ℕ) :
    ∀ (junk s : List ℕ), (∀ x ∈ junk, x ≠ L.start_byte) →
      process_stream L ctxs n (junk ++ s) = process_stream L ctxs n s := by
  intro junk
  induction junk with
  | nil => intro s _; rfl
  | cons a tl ih =>
    intro s h
    have ha : a ≠ L.start_byte := h a (List.mem_cons_self a tl)
    rw [List.cons_append, process_stream, if_pos ha]
    exact ih s (fun x hx => h x (List.mem_cons_of_mem a hx))

/-- C6: rows reach the output only from fully validated frames.  A stream
of non-sentinel bytes followed by one well-formed frame resynchronises and
decodes exactly that frame's rows; a frame with a valid start sentinel and
complete body but a corrupted stop sentinel contributes zero rows, and the
loop continues on the remaining stream. -/
theorem frames_validated_before_push (L : FrameLayout) (ctxs : ℕ → DecodeCtx)
    (n : ℕ) (junk body rest : List ℕ) (bad : ℕ)
    (hjunk : ∀ x ∈ junk, x ≠ L.start_byte)
    (hbody : body.length = L.transaction_size)
    (hbad : bad ≠ L.stop_byte) :
    process_stream L ctxs n (junk ++ L.start_byte :: (body ++ [L.stop_byte])) =
      decode_frame L (ctxs n) (fun i => body.getD i 0) ∧
    process_stream L ctxs n (L.start_byte :: (body ++ bad :: rest)) =
      process_stream L ctxs n rest := by
  constructor
  · rw [process_stream_skip L ctxs n junk _ hjunk]
    rw [process_stream]
    rw [if_neg (by simp)]
    have hlen : ¬((body ++ [L.stop_byte]).length < L.transaction_size + 1) := by
      simp [hbody]
    rw [if_neg hlen]
    have hlast : (body ++ [L.stop_byte]).getD L.transaction_size 0 = L.stop_byte := by
      rw [List.getD_eq_getElem?_getD, List.getElem?_append_right (by omega)]
      simp [hbody]
    rw [hlast, if_pos rfl]
    have hdrop : (body ++ [L.stop_byte]).drop (L.transaction_size + 1) = [] := by
      apply List.drop_eq_nil_of_le
      simp [hbody]
    rw [hdrop]
    have htake : (body ++ [L.stop_byte]).take L.transaction_size = body :=
      List.take_left' hbody
    rw [htake]
    simp [process_stream]
  · rw [process_stream]
    rw [if_neg (by simp)]
    have hlen : ¬((body ++ bad :: rest).length < L.transaction_size + 1) := by
      simp [hbody]
    rw [if_neg hlen]
    have hlast : (body ++ bad :: rest).getD L.transaction_size 0 = bad := by
      rw [List.getD_eq_getElem?_getD, List.getElem?_append_right (by omega)]
      simp [hbody]
    rw [hlast, if_neg hbad]
    have hdrop : (body ++ bad :: rest).drop (L.transaction_size + 1) = rest := by
      have hsplit : body ++ bad :: rest = (body ++ [bad]) ++ rest := by
        simp
      rw [hsplit]
      exact List.drop_left' (by simp [hbody])
    rw [hdrop]

/-- Witness for C6: two junk bytes, a two-byte body, a corrupted stop
sentinel. -/
theorem frames_validated_before_push_witness :
    process_stream layout_small (fun _ => ctx_distinct) 0
      ([1, 2] ++ layout_small.start_byte :: ([5, 6] ++ [layout_small.stop_byte])) =
      decode_frame layout_small ((fun _ => ctx_distinct) 0) (fun i => [5, 6].getD i 0) ∧
    process_stream layout_small (fun _ => ctx_distinct) 0
      (layout_small.start_byte :: ([5, 6] ++ 9 :: [])) =
      process_stream layout_small (fun _ => ctx_distinct) 0 [] :=
  frames_validated_before_push layout_small (fun _ => ctx_distinct) 0
    [1, 2] [5, 6] [] 9 (by decide) (by decide) (by decide)

end GaleaSerialModel
